import Mathlib

/-!
Verification development for the pipelex declarative workflow engine.

Each namespace shallowly embeds one component of the engine:

* `Pipelex` — shared association-list primitives standing for Python dicts
  (string keys, insertion order, replace-on-assignment).
* `Pipelex.ConceptValidation` — concept identifier validation
  (`ConceptBlueprint.validate_concept_string`), modelled from the spec and the
  behaviour pinned by `tests/unit/pipelex/core/concepts/concept/test_concept.py`.
* `Pipelex.BlueprintM` — `PipelineLibraryBlueprint.to_toml_dict` and its
  re-validation, from `pipelex/libraries/pipeline_blueprint.py`.
* further namespaces follow for the factory resolution, the loader passes,
  the router, the dry-run machinery and the parallel controller.
-/

namespace Pipelex

/-- Lookup in an association list standing for a Python dict
(first binding of the key wins; keys are unique by construction of `setKey`). -/
def getKey {α : Type} : List (String × α) → String → Option α
  | [], _ => none
  | (k', v) :: rest, k => if k' = k then some v else getKey rest k

/-- Dict assignment `d[k] = v`: replaces the binding when the key is present,
appends it otherwise (insertion order preserved). -/
def setKey {α : Type} : List (String × α) → String → α → List (String × α)
  | [], k, v => [(k, v)]
  | (k', v') :: rest, k, v => if k' = k then (k, v) :: rest else (k', v') :: setKey rest k v

/-- Dict removal `d.pop(k)`: removes the first binding of the key. -/
def eraseKey {α : Type} : List (String × α) → String → List (String × α)
  | [], _ => []
  | (k', v') :: rest, k => if k' = k then rest else (k', v') :: eraseKey rest k

theorem getKey_nil {α : Type} (k : String) : getKey ([] : List (String × α)) k = none := rfl

theorem getKey_setKey_self {α : Type} (l : List (String × α)) (k : String) (v : α) :
    getKey (setKey l k v) k = some v := by
  induction l with
  | nil => simp [setKey, getKey]
  | cons hd tl ih =>
    obtain ⟨k', v'⟩ := hd
    by_cases h : k' = k
    · simp [setKey, h, getKey]
    · simp [setKey, h, getKey, ih]

theorem getKey_setKey_ne {α : Type} (l : List (String × α)) (k k' : String) (v : α)
    (h : k' ≠ k) : getKey (setKey l k v) k' = getKey l k' := by
  induction l with
  | nil => simp [setKey, getKey, Ne.symm h]
  | cons hd tl ih =>
    obtain ⟨k₀, v₀⟩ := hd
    by_cases h0 : k₀ = k
    · subst h0
      simp [setKey, getKey, Ne.symm h]
    · simp only [setKey, if_neg h0, getKey]
      by_cases h1 : k₀ = k'
      · simp [h1]
      · simp [h1, ih]

theorem length_setKey_fresh {α : Type} (l : List (String × α)) (k : String) (v : α)
    (h : getKey l k = none) : (setKey l k v).length = l.length + 1 := by
  induction l with
  | nil => simp [setKey]
  | cons hd tl ih =>
    obtain ⟨k₀, v₀⟩ := hd
    by_cases h0 : k₀ = k
    · simp [getKey, h0] at h
    · simp only [getKey, if_neg h0] at h
      simp [setKey, h0, ih h]

end Pipelex

namespace Pipelex.ConceptValidation

/-- Modelled from the spec: the domain well-formedness check (`Domain` model,
module `pipelex.core.domains` absent from the sources): a domain code is
snake_case — nonempty, starts with a lowercase letter, and contains only
lowercase letters, digits and underscores. Matches the accepted
(`valid_domain`, `snake_case_domain`, `domain_123`) and rejected
(`InvalidDomain`, `domain-name`, `Domain_Name`, `123domain`, `""`) domains of
`test_validate_concept_string`. -/
def isSnakeCaseDomain (s : String) : Bool :=
  match s.data with
  | [] => false
  | c :: rest => (c.isLower && c.isAlpha) && rest.all (fun d => (d.isLower && d.isAlpha) || d.isDigit || d = '_')

/-- Modelled from the spec: the concept-code well-formedness check
(`ConceptBlueprint`, module `pipelex.core.concepts` absent from the sources):
a concept code is PascalCase — nonempty, starts with an uppercase letter, and
contains only letters and digits. Matches the accepted (`ConceptCode`, `TEXT`,
`Anything`) and rejected (`invalidText`, `text`, `Text_Name`, `text-name`)
codes of `test_validate_concept_string`. -/
def isPascalCaseCode (s : String) : Bool :=
  match s.data with
  | [] => false
  | c :: rest => c.isUpper && rest.all (fun d => d.isAlpha || d.isDigit)

/-- Codes of the built-in native concepts (`NativeConceptEnum`). -/
def nativeConceptCodes : List String :=
  ["Text", "Image", "PDF", "TextAndImages", "Number", "LLMPrompt", "Page", "Anything", "Dynamic"]

/-- The special native domain code (`SpecialDomain.NATIVE`). -/
def nativeDomain : String := "native"

/-- The error kinds concept identifier validation can produce. The tests pin
three distinct kinds: `ConceptStringError`, `ConceptCodeError`
(`pipelex.core.concepts.exceptions`) and `DomainError`
(`pipelex.core.domains.exceptions`). -/
inductive ConceptIssue
  | conceptStringError
  | conceptCodeError
  | domainError
deriving DecidableEq, Repr

/-- Splitting a character list on the dot character (the behaviour of
Python `str.split(".")` on the identifier strings at hand). -/
def splitDot : List Char → List (List Char)
  | [] => [[]]
  | c :: rest =>
    let r := splitDot rest
    if c = '.' then [] :: r
    else
      match r with
      | [] => [[c]]
      | g :: gs => (c :: g) :: gs

/-- The dot-separated parts of an identifier string. -/
def dotParts (s : String) : List String := (splitDot s.data).map (fun l => String.mk l)

/-- Modelled from the spec: `ConceptBlueprint.validate_concept_string`
(module `pipelex.core.concepts.concept_blueprint` absent from the sources;
behaviour fixed by the spec invariant — snake_case domain, PascalCase code,
at most one dot — and by `test_validate_concept_string`): a string with two
or more dots fails with `ConceptStringError`; a two-part string first checks
the domain (snake_case, else `DomainError`), then the code (PascalCase, else
`ConceptCodeError`), then, when the domain is the native domain, that the code
is a native concept code (else `ConceptStringError`); a bare code must be
PascalCase (else `ConceptCodeError`). `none` means the string is accepted. -/
def validate_concept_string (s : String) : Option ConceptIssue :=
  match dotParts s with
  | [code] => if isPascalCaseCode code then none else some .conceptCodeError
  | [domain, code] =>
    if !(isSnakeCaseDomain domain) then some .domainError
    else if !(isPascalCaseCode code) then some .conceptCodeError
    else if domain = nativeDomain && !(nativeConceptCodes.contains code) then some .conceptStringError
    else none
  | _ => some .conceptStringError

end Pipelex.ConceptValidation

namespace Pipelex.BlueprintM

/-- One entry of the `concept` table of a pipeline library TOML file:
either a bare definition string or a structured `ConceptBlueprint`
(`concept: Dict[str, Union[str, ConceptBlueprint]]`), the latter modelled
opaquely by its field map since `to_toml_dict` passes it through unchanged. -/
inductive ConceptEntry
  | str (definition : String)
  | blueprint (fields : List (String × String))
deriving DecidableEq, Repr

/-- `PipelineLibraryBlueprint` (pipelex/libraries/pipeline_blueprint.py):
domain plus four optional domain-level string fields, a concept table and a
pipe table (pipe entries are free-form field maps `Dict[str, Any]`, modelled
as string-valued maps). -/
structure PipelineLibraryBlueprint where
  domain : String
  definition : Option String := none
  system_prompt : Option String := none
  system_prompt_to_structure : Option String := none
  prompt_template_to_structure : Option String := none
  concept : List (String × ConceptEntry) := []
  pipe : List (String × List (String × String)) := []
deriving DecidableEq, Repr

/-- The TOML-compatible dictionary `to_toml_dict` builds: each field is
`none` when the key is absent from the dict. -/
structure TomlDict where
  domain : Option String
  definition : Option String
  system_prompt : Option String
  system_prompt_to_structure : Option String
  prompt_template_to_structure : Option String
  concept : Option (List (String × ConceptEntry))
  pipe : Option (List (String × List (String × String)))
deriving DecidableEq, Repr

/-- Python truthiness of an optional string (`if self.definition:`):
false for `None` and for the empty string. -/
def optStrTruthy : Option String → Bool
  | none => false
  | some s => !(s = "")

/-- `PipelineLibraryBlueprint.to_toml_dict`: always writes `domain`; writes
each optional field only when truthy; writes the `concept` and `pipe` tables
only when non-empty. -/
def to_toml_dict (b : PipelineLibraryBlueprint) : TomlDict :=
  { domain := some b.domain
    definition := if optStrTruthy b.definition then b.definition else none
    system_prompt := if optStrTruthy b.system_prompt then b.system_prompt else none
    system_prompt_to_structure :=
      if optStrTruthy b.system_prompt_to_structure then b.system_prompt_to_structure else none
    prompt_template_to_structure :=
      if optStrTruthy b.prompt_template_to_structure then b.prompt_template_to_structure else none
    concept := if b.concept.isEmpty then none else some b.concept
    pipe := if b.pipe.isEmpty then none else some b.pipe }

/-- `PipelineLibraryBlueprint.model_validate` on a TOML dict: `domain` is the
only required field; missing optional fields default to `None`, missing tables
to empty dicts (pydantic `Field(default_factory=dict)`). -/
def model_validate (d : TomlDict) : Except String PipelineLibraryBlueprint :=
  match d.domain with
  | none => .error "domain: Field required"
  | some dom =>
    .ok { domain := dom
          definition := d.definition
          system_prompt := d.system_prompt
          system_prompt_to_structure := d.system_prompt_to_structure
          prompt_template_to_structure := d.prompt_template_to_structure
          concept := d.concept.getD []
          pipe := d.pipe.getD [] }

/-- An optional string field is `None` or non-empty (the hypothesis of C10). -/
def noneOrNonempty : Option String → Bool
  | none => true
  | some s => !(s = "")

end Pipelex.BlueprintM

namespace Pipelex.BlueprintM

theorem ifTruthy_eq {o : Option String} (h : noneOrNonempty o = true) :
    (if optStrTruthy o then o else none) = o := by
  cases o with
  | none => simp [optStrTruthy]
  | some s =>
    have ht : optStrTruthy (some s) = true := by
      simpa [optStrTruthy, noneOrNonempty] using h
    simp [ht]

/-- C10: for every `PipelineLibraryBlueprint` whose optional string fields are
each `None` or non-empty, `to_toml_dict` followed by `model_validate` returns
the original blueprint; the dict always contains `domain`, contains each
optional field exactly when it is set (the dict field equals the blueprint
field), and contains the `concept`/`pipe` tables exactly when they are
non-empty. -/
theorem to_toml_dict_roundtrip (b : PipelineLibraryBlueprint)
    (h1 : noneOrNonempty b.definition = true)
    (h2 : noneOrNonempty b.system_prompt = true)
    (h3 : noneOrNonempty b.system_prompt_to_structure = true)
    (h4 : noneOrNonempty b.prompt_template_to_structure = true) :
    model_validate (to_toml_dict b) = .ok b
    ∧ (to_toml_dict b).domain = some b.domain
    ∧ (to_toml_dict b).definition = b.definition
    ∧ (to_toml_dict b).system_prompt = b.system_prompt
    ∧ (to_toml_dict b).system_prompt_to_structure = b.system_prompt_to_structure
    ∧ (to_toml_dict b).prompt_template_to_structure = b.prompt_template_to_structure
    ∧ ((to_toml_dict b).concept.isSome ↔ b.concept ≠ [])
    ∧ ((to_toml_dict b).pipe.isSome ↔ b.pipe ≠ []) := by
  obtain ⟨dom, df, sp, sps, pts, co, pi⟩ := b
  refine ⟨?_, rfl, ifTruthy_eq h1, ifTruthy_eq h2, ifTruthy_eq h3, ifTruthy_eq h4, ?_, ?_⟩
  · simp only [model_validate, to_toml_dict, ifTruthy_eq h1, ifTruthy_eq h2, ifTruthy_eq h3,
      ifTruthy_eq h4]
    cases co <;> cases pi <;> simp
  · cases co <;> simp [to_toml_dict]
  · cases pi <;> simp [to_toml_dict]

/-- A concrete blueprint used to instantiate the C10 round-trip. -/
def demoBlueprint : PipelineLibraryBlueprint :=
  { domain := "demo_domain"
    definition := some "a demo domain"
    concept := [("DemoConcept", .str "a demo concept")]
    pipe := [] }

/-- C10 witness: the round-trip theorem at a concrete blueprint. -/
theorem to_toml_dict_roundtrip_witness :
    model_validate (to_toml_dict demoBlueprint) = .ok demoBlueprint :=
  (to_toml_dict_roundtrip demoBlueprint (by decide) (by decide) (by decide) (by decide)).1

end Pipelex.BlueprintM

namespace Pipelex.ConceptValidation

/-- C9 counterexample: the malformed identifier `InvalidDomain.ConceptCode`
(non-snake_case domain part) is rejected with `DomainError`, which is neither
`ConceptCodeError` nor `ConceptStringError`; the test
`test_validate_concept_string` pins exactly this behaviour with
`pytest.raises(DomainError)`. -/
theorem validate_concept_string_domain_error_cex :
    validate_concept_string "InvalidDomain.ConceptCode" = some .domainError
    ∧ ConceptIssue.domainError ≠ .conceptCodeError
    ∧ ConceptIssue.domainError ≠ .conceptStringError := by
  refine ⟨by decide, by decide, by decide⟩

/-- C9 (amended): concept identifier validation accepts exactly the
well-formed strings; a string with two or more dots is rejected with
`ConceptStringError`, a two-part string with a non-snake_case domain with
`DomainError`, a non-PascalCase code part with `ConceptCodeError`, an unknown
native-domain code with `ConceptStringError`, and a bare code is accepted
exactly when it is PascalCase. -/
theorem validate_concept_string_classification (s : String) :
    (∀ p1 p2 p3 rest, dotParts s = p1 :: p2 :: p3 :: rest →
        validate_concept_string s = some .conceptStringError)
    ∧ (∀ d c, dotParts s = [d, c] → isSnakeCaseDomain d = false →
        validate_concept_string s = some .domainError)
    ∧ (∀ d c, dotParts s = [d, c] → isSnakeCaseDomain d = true →
        isPascalCaseCode c = false →
        validate_concept_string s = some .conceptCodeError)
    ∧ (∀ d c, dotParts s = [d, c] → isSnakeCaseDomain d = true →
        isPascalCaseCode c = true → d = nativeDomain →
        nativeConceptCodes.contains c = false →
        validate_concept_string s = some .conceptStringError)
    ∧ (∀ d c, dotParts s = [d, c] → isSnakeCaseDomain d = true →
        isPascalCaseCode c = true →
        (d ≠ nativeDomain ∨ nativeConceptCodes.contains c = true) →
        validate_concept_string s = none)
    ∧ (∀ c, dotParts s = [c] →
        (validate_concept_string s = none ↔ isPascalCaseCode c = true)) := by
  refine ⟨?_, ?_, ?_, ?_, ?_, ?_⟩
  · intro p1 p2 p3 rest h
    simp [validate_concept_string, h]
  · intro d c h hd
    simp [validate_concept_string, h, hd]
  · intro d c h hd hc
    simp [validate_concept_string, h, hd, hc]
  · intro d c h hd hc hn hm
    subst hn
    have hm' : c ∉ nativeConceptCodes := by simpa using hm
    simp [validate_concept_string, h, hd, hc, hm']
  · intro d c h hd hc hor
    rcases hor with hne | hmem
    · simp [validate_concept_string, h, hd, hc, hne]
    · have hm' : c ∈ nativeConceptCodes := by simpa using hmem
      simp [validate_concept_string, h, hd, hc, hm']
  · intro c h
    simp only [validate_concept_string, h]
    cases hpc : isPascalCaseCode c <;> simp [hpc]

/-- C9 witness: the classification theorem instantiated at the concrete
accepted string `valid_domain.ConceptCode`. -/
theorem validate_concept_string_classification_witness :
    validate_concept_string "valid_domain.ConceptCode" = none :=
  (validate_concept_string_classification "valid_domain.ConceptCode").2.2.2.2.1
    "valid_domain" "ConceptCode" (by decide) (by decide) (by decide)
    (Or.inl (by decide))

end Pipelex.ConceptValidation

namespace Pipelex

theorem foldl_setKey_fresh {α β : Type} (key : α → String) (val : α → β)
    (items : List α) (init : List (String × β))
    (hfresh : ∀ a ∈ items, getKey init (key a) = none)
    (hnodup : (items.map key).Nodup) :
    (items.foldl (fun m a => setKey m (key a) (val a)) init).length = init.length + items.length
    ∧ (∀ a ∈ items,
        getKey (items.foldl (fun m a => setKey m (key a) (val a)) init) (key a) = some (val a))
    ∧ (∀ k v, getKey init k = some v →
        getKey (items.foldl (fun m a => setKey m (key a) (val a)) init) k = some v) := by
  induction items generalizing init with
  | nil => exact ⟨by simp, by simp, fun k v hv => by simpa using hv⟩
  | cons a rest ih =>
    have hka : getKey init (key a) = none := hfresh a (List.mem_cons_self a rest)
    obtain ⟨hnotin, hnodup'⟩ : key a ∉ rest.map key ∧ (rest.map key).Nodup := by
      have h2 := hnodup
      rw [List.map_cons, List.nodup_cons] at h2
      exact h2
    have hfresh' : ∀ b ∈ rest, getKey (setKey init (key a) (val a)) (key b) = none := by
      intro b hb
      have hne : key b ≠ key a := by
        intro hEq
        exact hnotin (hEq ▸ List.mem_map_of_mem key hb)
      rw [getKey_setKey_ne _ _ _ _ hne]
      exact hfresh b (List.mem_cons_of_mem a hb)
    obtain ⟨ihlen, ihmem, ihpres⟩ := ih (setKey init (key a) (val a)) hfresh' hnodup'
    refine ⟨?_, ?_, ?_⟩
    · simp only [List.foldl_cons, List.length_cons]
      rw [ihlen, length_setKey_fresh init (key a) (val a) hka]
      omega
    · intro b hb
      rcases List.mem_cons.mp hb with hEq | hmem
      · subst hEq
        simp only [List.foldl_cons]
        exact ihpres (key b) (val b) (getKey_setKey_self init (key b) (val b))
      · simpa only [List.foldl_cons] using ihmem b hmem
    · intro k v hv
      have hne : k ≠ key a := by
        intro hEq
        rw [hEq, hka] at hv
        exact Option.noConfusion hv
      simp only [List.foldl_cons]
      exact ihpres k v (by rw [getKey_setKey_ne _ _ _ _ hne]; exact hv)

end Pipelex

namespace Pipelex.DryRunM

/-- The structural shape a dry-run requirement expects: a structured content
class with declared field names, or the unstructured text fallback
(`TextContent`). -/
inductive StructureSpec
  | structured (class_name : String) (field_names : List String)
  | textFallback
deriving DecidableEq, Repr

/-- The content of a synthesized Stuff: a text mock or a structured mock with
one dummy value per declared field. -/
inductive MockContent
  | text (text : String)
  | structured (class_name : String) (fields : List (String × String))
deriving DecidableEq, Repr

/-- `TypedNamedInputRequirement` (pipelex.core.pipes.pipe_input_spec): the
variable name a pipe declares, the concept code it requires and the structure
class of that concept. -/
structure TypedNamedInputRequirement where
  variable_name : String
  concept_code : String
  structure_spec : StructureSpec
deriving DecidableEq, Repr

/-- A named runtime value in Working Memory. -/
structure Stuff where
  stuff_name : String
  concept_code : String
  content : MockContent
deriving DecidableEq, Repr

/-- The recognizable marker beginning every synthetic text mock. -/
def dryRunTag : String := "DRY RUN"

/-- Modelled from the spec: the concept-appropriate mock for one requirement
(the mock factory behind `WorkingMemoryFactory.make_for_dry_run`, module
`pipelex.core.memory.working_memory_factory` absent from the sources):
structured concepts get every declared field populated with a dummy value,
fallback concepts get a literal marker string beginning with the DRY RUN tag. -/
def mock_content (spec : StructureSpec) (vname : String) : MockContent :=
  match spec with
  | .textFallback => .text (dryRunTag ++ (": mock text for " ++ vname))
  | .structured cls field_names =>
    .structured cls (field_names.map (fun f => (f, "dummy_" ++ f)))

/-- The synthesized Stuff for one requirement: stored under the requirement's
variable name and carrying its declared concept code. -/
def mock_stuff (r : TypedNamedInputRequirement) : Stuff :=
  ⟨r.variable_name, r.concept_code, mock_content r.structure_spec r.variable_name⟩

/-- Modelled from the spec: `WorkingMemoryFactory.make_for_dry_run` — one
synthesized Stuff per needed input, placed in a fresh Working Memory under the
requirement's variable name (dict assignment, so a repeated variable name
replaces the earlier entry). -/
def make_for_dry_run (needed : List TypedNamedInputRequirement) : List (String × Stuff) :=
  needed.foldl (fun mem r => Pipelex.setKey mem r.variable_name (mock_stuff r)) []

/-- `DryRunError`: carries the failing pipe's code and the missing input
variable names. -/
structure DryRunError where
  pipe_code : String
  missing_inputs : List String
deriving DecidableEq, Repr

/-- The names of the declared requirements absent from a Working Memory. -/
def missing_input_names (reqs : List TypedNamedInputRequirement)
    (mem : List (String × Stuff)) : List String :=
  (reqs.filter (fun r => (Pipelex.getKey mem r.variable_name).isNone)).map
    (fun r => r.variable_name)

/-- Modelled from the spec: the DRY-mode missing-input check with mocking
disabled — when at least one declared required input is absent from Working
Memory, fail with a `DryRunError` naming the pipe and the missing variables. -/
def check_required_inputs (pipe_code : String) (reqs : List TypedNamedInputRequirement)
    (mem : List (String × Stuff)) : Option DryRunError :=
  let missing := missing_input_names reqs mem
  if missing.isEmpty then none else some ⟨pipe_code, missing⟩

end Pipelex.DryRunM

namespace Pipelex.DryRunM

/-- C4 (amended): for every list of needed input requirements with pairwise
distinct variable names, `make_for_dry_run` returns a Working Memory with
exactly one synthesized Stuff per requirement, stored under that
requirement's variable name and carrying its declared concept code;
structured concepts get every declared field populated with a dummy value,
fallback concepts get a text mock beginning with the DRY RUN tag; the empty
requirement list yields an empty Working Memory; and the missing-input check
reports no error for the synthesized inputs. -/
theorem make_for_dry_run_spec (needed : List TypedNamedInputRequirement)
    (hnd : (needed.map (fun r => r.variable_name)).Nodup) :
    (make_for_dry_run needed).length = needed.length
    ∧ (∀ r ∈ needed,
        Pipelex.getKey (make_for_dry_run needed) r.variable_name = some (mock_stuff r))
    ∧ (∀ r : TypedNamedInputRequirement,
        (mock_stuff r).concept_code = r.concept_code
        ∧ (mock_stuff r).stuff_name = r.variable_name)
    ∧ (∀ (r : TypedNamedInputRequirement) (cls : String) (fns : List String),
        r.structure_spec = .structured cls fns →
        ∃ flds, (mock_stuff r).content = .structured cls flds
          ∧ flds.map Prod.fst = fns ∧ ∀ p ∈ flds, p.2 = "dummy_" ++ p.1)
    ∧ (∀ r : TypedNamedInputRequirement, r.structure_spec = .textFallback →
        ∃ t, (mock_stuff r).content = .text t ∧ ∃ rest, t = dryRunTag ++ rest)
    ∧ make_for_dry_run [] = []
    ∧ (∀ pc, check_required_inputs pc needed (make_for_dry_run needed) = none) := by
  have hfresh : ∀ r ∈ needed,
      Pipelex.getKey ([] : List (String × Stuff)) r.variable_name = none := by
    intro r _
    rfl
  obtain ⟨hlen, hmem, _⟩ :=
    Pipelex.foldl_setKey_fresh (fun r : TypedNamedInputRequirement => r.variable_name)
      mock_stuff needed [] hfresh hnd
  refine ⟨by simpa using hlen, fun r hr => hmem r hr, ?_, ?_, ?_, rfl, ?_⟩
  · intro r
    exact ⟨rfl, rfl⟩
  · intro r cls fns hs
    refine ⟨fns.map (fun f => (f, "dummy_" ++ f)), ?_, ?_, ?_⟩
    · simp [mock_stuff, mock_content, hs]
    · simp [Function.comp_def]
    · intro p hp
      obtain ⟨f, _, rfl⟩ := List.mem_map.mp hp
      rfl
  · intro r hs
    exact ⟨dryRunTag ++ (": mock text for " ++ r.variable_name),
      by simp [mock_stuff, mock_content, hs], ⟨": mock text for " ++ r.variable_name, rfl⟩⟩
  · intro pc
    have hnone : missing_input_names needed (make_for_dry_run needed) = [] := by
      rw [missing_input_names, List.map_eq_nil_iff, List.filter_eq_nil_iff]
      intro r hr
      simp only [make_for_dry_run]
      rw [hmem r hr]
      simp
    simp [check_required_inputs, hnone]

/-- Two requirements sharing the variable name `x` with different concepts. -/
def dupReq1 : TypedNamedInputRequirement := ⟨"x", "domain_a.ConceptA", .textFallback⟩

/-- The second requirement under the same variable name. -/
def dupReq2 : TypedNamedInputRequirement := ⟨"x", "domain_b.ConceptB", .textFallback⟩

/-- C4 counterexample: for the two-requirement list whose entries share the
variable name `x`, the dry-run memory holds one entry, not one per
requirement, and the surviving entry carries the second requirement's concept
code, not the first one's. -/
theorem make_for_dry_run_duplicate_cex :
    (make_for_dry_run [dupReq1, dupReq2]).length = 1
    ∧ [dupReq1, dupReq2].length = 2
    ∧ Pipelex.getKey (make_for_dry_run [dupReq1, dupReq2]) "x" = some (mock_stuff dupReq2)
    ∧ (mock_stuff dupReq2).concept_code ≠ dupReq1.concept_code := by
  refine ⟨by decide, by decide, by decide, by decide⟩

/-- A requirement for a structured native page concept, as in the test
`test_make_for_dry_run_with_page_content`. -/
def pageReq : TypedNamedInputRequirement :=
  ⟨"page", "native.Page", .structured "PageContent" ["text_and_images", "page_view"]⟩

/-- A fallback text requirement, as in `test_make_for_dry_run_with_structured_content`. -/
def questionReq : TypedNamedInputRequirement := ⟨"question", "answer.Question", .textFallback⟩

/-- C4 witness: the amended theorem instantiated at the two concrete
requirements of the unit tests. -/
theorem make_for_dry_run_spec_witness :
    (make_for_dry_run [pageReq, questionReq]).length = 2 :=
  (make_for_dry_run_spec [pageReq, questionReq] (by decide)).1

/-- C5: for every pipe declaring at least one required input, the DRY-mode
missing-input check over a completely empty Working Memory fails with a
`DryRunError` that carries the pipe's code and names exactly the declared
missing input variables. -/
theorem check_required_inputs_empty_memory (pipe_code : String)
    (reqs : List TypedNamedInputRequirement) (h : reqs ≠ []) :
    check_required_inputs pipe_code reqs [] =
      some ⟨pipe_code, reqs.map (fun r => r.variable_name)⟩ := by
  have hm : missing_input_names reqs [] = reqs.map (fun r => r.variable_name) := by
    rw [missing_input_names]
    congr 1
    rw [List.filter_eq_self]
    intro r _
    rfl
  rw [check_required_inputs]
  simp only [hm]
  cases reqs with
  | nil => exact absurd rfl h
  | cons a t => simp

/-- C5 witness: the missing-input theorem at the concrete condition pipe of
`test_condition_dry_run_missing_inputs_failure`. -/
theorem check_required_inputs_empty_memory_witness :
    check_required_inputs "basic_condition_by_category_2"
        [⟨"input_data", "test_pipe_condition_2.CategoryInput", .textFallback⟩] [] =
      some ⟨"basic_condition_by_category_2", ["input_data"]⟩ :=
  check_required_inputs_empty_memory "basic_condition_by_category_2"
    [⟨"input_data", "test_pipe_condition_2.CategoryInput", .textFallback⟩] (by decide)

end Pipelex.DryRunM

namespace Pipelex.ConceptCompat

/-- `Concept` (pipelex.core.concepts.concept, absent from the sources,
modelled from the spec data model): domain-qualified code, the structure
class its values must have, and the optional `refines` parent concept
string. -/
structure Concept where
  domain : String
  code : String
  structure_class_name : String
  refines : Option String := none
deriving DecidableEq, Repr

/-- The concept string `domain.Code` of a concept. -/
def conceptString (c : Concept) : String := c.domain ++ "." ++ c.code

/-- Whether a concept matches a `refines` reference: by its full concept
string, or — for native concepts — by its bare code. -/
def matchesRef (d : Concept) (r : String) : Bool :=
  conceptString d == r || (d.domain == Pipelex.ConceptValidation.nativeDomain && d.code == r)

/-- Modelled from the spec: resolving a concept's declared `refines` parent
against the loaded concept library. -/
def resolve_parent (lib : List Concept) (c : Concept) : Option Concept :=
  match c.refines with
  | none => none
  | some r => lib.find? (fun d => matchesRef d r)

/-- The chain of ancestors reached by following `refines` links, cut off by
fuel (the library size bounds every acyclic chain). -/
def ancestors (lib : List Concept) : Nat → Concept → List Concept
  | 0, _ => []
  | n + 1, c =>
    match resolve_parent lib c with
    | none => []
    | some p => p :: ancestors lib n p

/-- Whether one concept refines another, directly or transitively. -/
def refines_transitively (lib : List Concept) (a b : Concept) : Bool :=
  (ancestors lib (lib.length + 1) a).any (fun p => p == b)

/-- Whether two concepts share a structure class. -/
def share_structure (a b : Concept) : Bool :=
  a.structure_class_name == b.structure_class_name

/-- Modelled from the spec: `Concept.are_concept_compatible` — two concepts
are compatible if they share a structure class, or one refines the other
(directly or transitively), or, in non-strict mode, they refine a common
ancestor in the library. -/
def are_concept_compatible (lib : List Concept) (a b : Concept) (strict : Bool) : Bool :=
  share_structure a b || refines_transitively lib a b || refines_transitively lib b a
    || (!strict && lib.any (fun p => refines_transitively lib a p && refines_transitively lib b p))

theorem refines_trans_of_parent_parent (lib : List Concept) (a b c : Concept)
    (h1 : resolve_parent lib a = some b) (h2 : resolve_parent lib b = some c) :
    refines_transitively lib a c = true := by
  have hcmem : c ∈ lib := by
    rw [resolve_parent] at h2
    cases hbr : b.refines with
    | none => rw [hbr] at h2; exact Option.noConfusion h2
    | some r =>
      rw [hbr] at h2
      exact List.mem_of_find?_eq_some h2
  obtain ⟨m, hm⟩ : ∃ m, lib.length = m + 1 := by
    have := List.length_pos_of_mem hcmem
    exact ⟨lib.length - 1, by omega⟩
  have e1 : ancestors lib (lib.length + 1) a = b :: ancestors lib lib.length b := by
    simp [ancestors, h1]
  have e2 : ancestors lib lib.length b = c :: ancestors lib m c := by
    rw [hm]
    simp [ancestors, h2]
  rw [refines_transitively, List.any_eq_true]
  refine ⟨c, ?_, by simp⟩
  rw [e1, e2]
  exact List.mem_cons_of_mem b (List.mem_cons_self c _)

/-- C3: concept compatibility is a preorder in non-strict mode — if A's
declared parent resolves to B and B's to C then A is compatible with C in
non-strict mode; every concept is compatible with itself in either mode; and
two concepts sharing a structure class are compatible both ways in either
mode (so compatibility is symmetric in the shared-structure case). -/
theorem are_concept_compatible_preorder (lib : List Concept) (a b c : Concept)
    (h1 : resolve_parent lib a = some b) (h2 : resolve_parent lib b = some c) :
    are_concept_compatible lib a c false = true
    ∧ (∀ (x : Concept) (strict : Bool), are_concept_compatible lib x x strict = true)
    ∧ (∀ (x y : Concept) (strict : Bool), x.structure_class_name = y.structure_class_name →
        are_concept_compatible lib x y strict = true
        ∧ are_concept_compatible lib y x strict = true) := by
  refine ⟨?_, ?_, ?_⟩
  · have ht := refines_trans_of_parent_parent lib a b c h1 h2
    simp [are_concept_compatible, ht]
  · intro x strict
    simp [are_concept_compatible, share_structure]
  · intro x y strict hxy
    constructor
    · simp [are_concept_compatible, share_structure, hxy]
    · simp [are_concept_compatible, share_structure, hxy]

/-- A concept refining `demo.ConceptB`. -/
def conceptA : Concept := ⟨"demo", "ConceptA", "AContent", some "demo.ConceptB"⟩

/-- A concept refining `demo.ConceptC`. -/
def conceptB : Concept := ⟨"demo", "ConceptB", "BContent", some "demo.ConceptC"⟩

/-- A root concept with no parent. -/
def conceptC : Concept := ⟨"demo", "ConceptC", "CContent", none⟩

/-- The three-concept demo library with the refinement chain A → B → C. -/
def demoLib : List Concept := [conceptA, conceptB, conceptC]

/-- C3 witness: the preorder theorem at the concrete chain A → B → C; A is
compatible with C non-strictly although they share no structure class. -/
theorem are_concept_compatible_preorder_witness :
    are_concept_compatible demoLib conceptA conceptC false = true :=
  (are_concept_compatible_preorder demoLib conceptA conceptB conceptC
    (by decide) (by decide)).1

end Pipelex.ConceptCompat

namespace Pipelex.RouterM

/-- A pipe as the router sees it, reduced to what drives recursion: an
operator leaf, or a Sequence controller whose steps name further pipes
(dynamic resolution by code, as in the source DSL). -/
inductive PipeModel (κ : Type)
  | operator
  | sequence (steps : List κ)

/-- The router's failure modes: unknown pipe code, or the call-stack
protection (`PipeStackOverflowError`, message `Exceeded pipe stack limit`). -/
inductive PipeError
  | pipeNotFound
  | stackOverflow
deriving DecidableEq, Repr

mutual

/-- Modelled from the spec: the Pipe Router entry point
(`pipe_works/pipe_router`, absent from the sources) — resolves the pipe by
code, keeps an explicit call-stack depth counter, fails with
`PipeStackOverflowError` once the counter reaches the configured depth limit,
and otherwise dispatches to the pipe's own run method; a Sequence runs its
steps in order through the router, each step one frame deeper. -/
def run_pipe_code {κ : Type} (lib : κ → Option (PipeModel κ)) (limit depth : Nat)
    (code : κ) : Except PipeError Unit :=
  if _hstack : limit ≤ depth then .error .stackOverflow
  else
    match lib code with
    | none => .error .pipeNotFound
    | some .operator => .ok ()
    | some (.sequence steps) => run_sequence_steps lib limit (depth + 1) steps
termination_by (limit - depth, 0)
decreasing_by
  apply Prod.Lex.left
  omega

/-- The steps of a Sequence, run strictly in order; the first failure
propagates. -/
def run_sequence_steps {κ : Type} (lib : κ → Option (PipeModel κ)) (limit depth : Nat)
    (steps : List κ) : Except PipeError Unit :=
  match steps with
  | [] => .ok ()
  | s :: rest =>
    match run_pipe_code lib limit depth s with
    | .ok _ => run_sequence_steps lib limit depth rest
    | .error e => .error e
termination_by (limit - depth, steps.length + 1)
decreasing_by
  · apply Prod.Lex.right
    omega
  · apply Prod.Lex.right
    simp only [List.length_cons]
    omega

end

/-- The self-referencing Sequence of the failure-mode library
(`infinite_loop_1` of `PipeTestCases.FAILURE_PIPES`). -/
def selfLoopLib : String → Option (PipeModel String) :=
  fun c => if c = "infinite_loop_1" then some (.sequence ["infinite_loop_1"]) else none

/-- A straight-line library of nesting depth `n`: pipe `i` is a Sequence
around pipe `i + 1` for `i < n`, and pipe `n` is an operator. -/
def chainLib (n : Nat) : Nat → Option (PipeModel Nat) :=
  fun i => if i < n then some (.sequence [i + 1]) else if i = n then some .operator else none

theorem run_self_loop_overflow (limit : Nat) :
    ∀ (fuel depth : Nat), limit - depth ≤ fuel →
      run_pipe_code selfLoopLib limit depth "infinite_loop_1" = .error .stackOverflow := by
  intro fuel
  induction fuel with
  | zero =>
    intro depth hd
    rw [run_pipe_code]
    have hle : limit ≤ depth := by omega
    simp [hle]
  | succ n ih =>
    intro depth hd
    rw [run_pipe_code]
    by_cases hld : limit ≤ depth
    · simp [hld]
    · have hrec := ih (depth + 1) (by omega)
      simp only [hld, dite_false]
      rw [show selfLoopLib "infinite_loop_1" = some (.sequence ["infinite_loop_1"]) from rfl]
      simp only [run_sequence_steps, hrec]

theorem run_chain_characterization (n limit : Nat) :
    ∀ (m k depth : Nat), k + m = n →
      run_pipe_code (chainLib n) limit depth k =
        if m < limit - depth then .ok () else .error .stackOverflow := by
  intro m
  induction m with
  | zero =>
    intro k depth hk
    rw [run_pipe_code]
    by_cases hld : limit ≤ depth
    · have hz : limit - depth = 0 := by omega
      simp [hld, hz]
    · have hpos : 0 < limit - depth := by omega
      have hkn : k = n := by omega
      have hop : chainLib n k = some .operator := by
        simp [chainLib, hkn]
      simp [hld, hop, hpos]
  | succ m ih =>
    intro k depth hk
    rw [run_pipe_code]
    by_cases hld : limit ≤ depth
    · have hz : limit - depth = 0 := by omega
      simp [hld, hz]
    · have hkn : k < n := by omega
      have hstep : chainLib n k = some (.sequence [k + 1]) := by
        have hne : ¬ (k = n) := by omega
        simp [chainLib, hkn, hne]
      simp only [hld, dite_false, hstep]
      have hrec := ih (k + 1) (depth + 1) (by omega)
      by_cases hrem : m < limit - (depth + 1)
      · rw [if_pos (show m + 1 < limit - depth by omega)]
        simp only [run_sequence_steps, hrec, if_pos hrem]
      · rw [if_neg (show ¬ (m + 1 < limit - depth) by omega)]
        simp only [run_sequence_steps, hrec, if_neg hrem]

/-- C1: the router's call-stack protection. A self-referencing Sequence
always fails with the stack-overflow error — the recursion terminates at the
limit instead of proceeding unboundedly (`run_pipe_code` is a total
function) — and a straight-line graph of nesting depth `n` runs to
completion exactly when `n` frames fit under the limit: no error is raised
before the configured depth limit is reached, and the error is raised as
soon as it is. -/
theorem pipe_router_stack_protection :
    (∀ limit depth : Nat,
        run_pipe_code selfLoopLib limit depth "infinite_loop_1" = .error .stackOverflow)
    ∧ (∀ n limit : Nat,
        run_pipe_code (chainLib n) limit 0 0 =
          if n < limit then .ok () else .error .stackOverflow) := by
  constructor
  · intro limit depth
    exact run_self_loop_overflow limit (limit - depth) depth (Nat.le_refl _)
  · intro n limit
    have h := run_chain_characterization n limit n 0 0 (by omega)
    simpa using h

end Pipelex.RouterM

namespace Pipelex.ParallelM

/-- A runtime value routed by the parallel controller (concept code plus
text content, the shape the integration test inspects). -/
structure Stuff where
  concept_code : String
  text : String
deriving DecidableEq, Repr

/-- Working Memory: the insertion-ordered name-to-Stuff store plus the
distinguished main entry name. -/
structure WorkingMemory where
  root : List (String × Stuff)
  main_name : Option String := none
deriving DecidableEq, Repr

/-- A sub-pipe reference of a controller: target pipe code and the name the
result is stored under. -/
structure SubPipe where
  pipe_code : String
  output_name : String
deriving DecidableEq, Repr

/-- A pipe run's result: the updated Working Memory and the main Stuff. -/
structure PipeOutput where
  working_memory : WorkingMemory
  main_stuff : Option Stuff
deriving DecidableEq, Repr

/-- The main Stuff of a memory: the entry its main name points at. -/
def get_main (m : WorkingMemory) : Option Stuff :=
  m.main_name.bind (fun nm => Pipelex.getKey m.root nm)

/-- Modelled from the spec: `PipeParallel.run_pipe`
(`pipe_controllers/pipe_parallel`, absent from the sources). Every branch
runs over the same input snapshot (`exec` gives each branch's result on that
snapshot); `completion` is the order in which branches complete and their
results are merged. With `add_each_output` every result is stored under its
declared name; with `combined_output` the designated name becomes the main
output, and with neither the original main passes through. The returned main
Stuff is resolved in the final memory. -/
def run_pipe_parallel (mem : WorkingMemory) (exec : SubPipe → Stuff)
    (completion : List SubPipe) (add_each_output : Bool)
    (combined_output : Option String) : PipeOutput :=
  let root1 :=
    if add_each_output then
      completion.foldl (fun r sp => Pipelex.setKey r sp.output_name (exec sp)) mem.root
    else mem.root
  let main1 :=
    match combined_output with
    | some nm => some nm
    | none => mem.main_name
  { working_memory := ⟨root1, main1⟩
    main_stuff := main1.bind (fun nm => Pipelex.getKey root1 nm) }

/-- C2 (amended): for a Parallel pipe whose sub-pipes have pairwise distinct
result names, all distinct from the input memory's entry names, run with
`add_each_output` and no `combined_output`: whatever order the branches
complete in, the returned memory holds exactly one new entry per declared
result name (each carrying its branch's result) plus the original entries
unchanged, and the returned main output is the original main input. -/
theorem run_pipe_parallel_spec (mem : WorkingMemory) (subs completion : List SubPipe)
    (exec : SubPipe → Stuff)
    (hperm : completion.Perm subs)
    (hnodup : (subs.map (fun sp => sp.output_name)).Nodup)
    (hfresh : ∀ sp ∈ subs, Pipelex.getKey mem.root sp.output_name = none)
    (hmain : mem.main_name.all (fun nm => (Pipelex.getKey mem.root nm).isSome) = true) :
    (run_pipe_parallel mem exec completion true none).working_memory.root.length
        = mem.root.length + subs.length
    ∧ (∀ sp ∈ subs,
        Pipelex.getKey (run_pipe_parallel mem exec completion true none).working_memory.root
          sp.output_name = some (exec sp))
    ∧ (∀ k v, Pipelex.getKey mem.root k = some v →
        Pipelex.getKey (run_pipe_parallel mem exec completion true none).working_memory.root k
          = some v)
    ∧ (run_pipe_parallel mem exec completion true none).working_memory.main_name = mem.main_name
    ∧ (run_pipe_parallel mem exec completion true none).main_stuff = get_main mem := by
  have hnodupC : (completion.map (fun sp => sp.output_name)).Nodup :=
    ((hperm.map (fun sp => sp.output_name)).nodup_iff).mpr hnodup
  have hfreshC : ∀ sp ∈ completion, Pipelex.getKey mem.root sp.output_name = none :=
    fun sp hsp => hfresh sp (hperm.mem_iff.mp hsp)
  obtain ⟨hlen, hmem, hpres⟩ :=
    Pipelex.foldl_setKey_fresh (fun sp : SubPipe => sp.output_name) exec
      completion mem.root hfreshC hnodupC
  refine ⟨?_, ?_, ?_, rfl, ?_⟩
  · simp only [run_pipe_parallel, if_pos]
    rw [hlen, hperm.length_eq]
  · intro sp hsp
    exact hmem sp (hperm.mem_iff.mpr hsp)
  · intro k v hv
    exact hpres k v hv
  · rw [run_pipe_parallel, get_main]
    cases hmn : mem.main_name with
    | none => rfl
    | some nm =>
      rw [hmn] at hmain
      obtain ⟨s, hs⟩ := Option.isSome_iff_exists.mp (by simpa using hmain)
      simp only [Option.some_bind, if_true]
      rw [hpres nm s hs, hs]

end Pipelex.ParallelM

namespace Pipelex.ParallelM

/-- The original main input of the collision counterexample. -/
def inputStuff : Stuff := ⟨"native.Text", "Hello world"⟩

/-- A memory with one entry `x`, which is also the main entry. -/
def collidingMem : WorkingMemory := ⟨[("x", inputStuff)], some "x"⟩

/-- A single sub-pipe whose declared result name collides with the input
entry name `x`. -/
def collidingSub : SubPipe := ⟨"analyze_sentiment", "x"⟩

/-- The branch result of the colliding sub-pipe. -/
def collideExec : SubPipe → Stuff := fun _ => ⟨"native.Text", "DRY RUN sentiment"⟩

/-- C2 counterexample: one sub-pipe (trivially pairwise-distinct result
names) whose result name equals an input entry name. The returned memory has
1 entry instead of the claimed 1 original + 1 new = 2, and the returned main
output is the overwritten branch result, not the original main input. -/
theorem run_pipe_parallel_collision_cex :
    (run_pipe_parallel collidingMem collideExec [collidingSub] true none).working_memory.root.length
        = 1
    ∧ collidingMem.root.length + [collidingSub].length = 2
    ∧ (run_pipe_parallel collidingMem collideExec [collidingSub] true none).main_stuff
        ≠ get_main collidingMem := by
  refine ⟨by decide, by decide, by decide⟩

/-- The input text entry of the parallel integration test. -/
def inText : Stuff := ⟨"native.Text", "The weather is beautiful today."⟩

/-- The test's input memory: the single `input_text` entry, also main. -/
def memParallel : WorkingMemory := ⟨[("input_text", inText)], some "input_text"⟩

/-- The three sub-pipes of `test_parallel_text_analysis`. -/
def subsParallel : List SubPipe :=
  [⟨"analyze_sentiment", "sentiment_result"⟩,
   ⟨"count_words", "word_count_result"⟩,
   ⟨"extract_keywords", "keywords_result"⟩]

/-- A completion order different from the declaration order. -/
def completionParallel : List SubPipe :=
  [⟨"extract_keywords", "keywords_result"⟩,
   ⟨"analyze_sentiment", "sentiment_result"⟩,
   ⟨"count_words", "word_count_result"⟩]

/-- Each branch's result on the shared input snapshot. -/
def execParallel : SubPipe → Stuff := fun sp => ⟨"native.Text", "DRY RUN " ++ sp.pipe_code⟩

/-- C2 witness: the amended theorem at the three concrete sub-pipes of the
integration test, with a permuted completion order: 1 original + 3 new
entries. -/
theorem run_pipe_parallel_spec_witness :
    (run_pipe_parallel memParallel execParallel completionParallel true none).working_memory.root.length
      = memParallel.root.length + subsParallel.length :=
  (run_pipe_parallel_spec memParallel subsParallel completionParallel execParallel
    (by decide) (by decide) (by decide) (by decide)).1

end Pipelex.ParallelM

namespace Pipelex.FactoryM

/-- The concrete pipe a factory builds: domain, code and the normalized
field map handed to the factory. -/
structure PipeObj where
  domain : String
  code : String
  fields : List (String × String)
deriving DecidableEq, Repr

/-- An entry of the class registry under a factory class name: whether the
registered class is a `PipeSpecificFactoryProtocol` subclass, and its
`make_pipe_from_details_dict` build function. -/
structure FactoryEntry where
  is_protocol_subclass : Bool
  make : String → String → List (String × String) → PipeObj

/-- `PipeFactoryError` as raised by `LibraryManager.make_pipe_from_blueprint`
(pipelex/libraries/library_manager.py): the empty-blueprint case, the
factory-not-found case and the not-a-subclass case, each carrying the pipe
code and (for the latter two) the factory class name of the message. -/
inductive PipeFactoryError
  | emptyBlueprint (pipe_code : String)
  | factoryNotFound (pipe_code factory_class_name : String)
  | factoryNotSubclass (pipe_code factory_class_name : String)
deriving DecidableEq, Repr

/-- The error message, mirroring the f-strings of the source. -/
def PipeFactoryError.desc : PipeFactoryError → String
  | .emptyBlueprint pipe_code =>
    "Pipe '" ++ pipe_code ++ "' could not be created because its blueprint is empty."
  | .factoryNotFound pipe_code factory_class_name =>
    "Pipe '" ++ pipe_code ++ "' couldn't be created: factory '" ++ factory_class_name
      ++ "' not found"
  | .factoryNotSubclass pipe_code factory_class_name =>
    "Pipe '" ++ pipe_code ++ "' couldn't be created: factory '" ++ factory_class_name
      ++ "' is not a subclass of PipeSpecificFactoryProtocol"

/-- `LibraryManager.make_pipe_from_blueprint`
(pipelex/libraries/library_manager.py, lines 329-387): reads `type` and
`definition` from the details dict (falling back to the deprecated
single-key legacy syntax, or failing on an empty dict); resolves the factory
registered under `<type>Factory`, failing with `PipeFactoryError` when the
name is unregistered or the registered class is not a
`PipeSpecificFactoryProtocol` subclass; otherwise sets `definition` and
`domain` in the details and lets the factory build the pipe. -/
def make_pipe_from_blueprint (registry : List (String × FactoryEntry))
    (domain_code pipe_code : String) (details_dict : List (String × String)) :
    Except PipeFactoryError PipeObj :=
  let header : Except PipeFactoryError (String × String × List (String × String)) :=
    match Pipelex.getKey details_dict "type", Pipelex.getKey details_dict "definition" with
    | some pipe_class_name, some pipe_definition =>
      .ok (pipe_class_name, pipe_definition, Pipelex.eraseKey details_dict "type")
    | _, _ =>
      match details_dict with
      | [] => .error (.emptyBlueprint pipe_code)
      | (pipe_class_name, pipe_definition) :: _ =>
        .ok (pipe_class_name, pipe_definition, Pipelex.eraseKey details_dict pipe_class_name)
  match header with
  | .error e => .error e
  | .ok (pipe_class_name, pipe_definition, details1) =>
    let factory_class_name := pipe_class_name ++ "Factory"
    match Pipelex.getKey registry factory_class_name with
    | none => .error (.factoryNotFound pipe_code factory_class_name)
    | some pipe_factory =>
      if pipe_factory.is_protocol_subclass then
        let details2 := Pipelex.setKey (Pipelex.setKey details1 "definition" pipe_definition)
          "domain" domain_code
        .ok (pipe_factory.make domain_code pipe_code details2)
      else .error (.factoryNotSubclass pipe_code factory_class_name)

/-- C7: for every pipe definition declaring a type `T`, factory resolution
follows the `<T>Factory` naming convention — a registered
`PipeSpecificFactoryProtocol` subclass of that name builds the pipe from the
normalized field map, and otherwise loading fails with a `PipeFactoryError`
whose message names both the offending pipe code and the factory class
name. -/
theorem make_pipe_factory_resolution (registry : List (String × FactoryEntry))
    (domain_code pipe_code : String) (details_dict : List (String × String))
    (t d : String)
    (ht : Pipelex.getKey details_dict "type" = some t)
    (hd : Pipelex.getKey details_dict "definition" = some d) :
    (∀ f, Pipelex.getKey registry (t ++ "Factory") = some f → f.is_protocol_subclass = true →
        make_pipe_from_blueprint registry domain_code pipe_code details_dict =
          .ok (f.make domain_code pipe_code
            (Pipelex.setKey (Pipelex.setKey (Pipelex.eraseKey details_dict "type") "definition" d)
              "domain" domain_code)))
    ∧ (Pipelex.getKey registry (t ++ "Factory") = none →
        make_pipe_from_blueprint registry domain_code pipe_code details_dict =
          .error (.factoryNotFound pipe_code (t ++ "Factory"))
        ∧ ∃ s1 s2 s3, (PipeFactoryError.factoryNotFound pipe_code (t ++ "Factory")).desc
            = s1 ++ pipe_code ++ s2 ++ (t ++ "Factory") ++ s3)
    ∧ (∀ f, Pipelex.getKey registry (t ++ "Factory") = some f →
        f.is_protocol_subclass = false →
        make_pipe_from_blueprint registry domain_code pipe_code details_dict =
          .error (.factoryNotSubclass pipe_code (t ++ "Factory"))
        ∧ ∃ s1 s2 s3, (PipeFactoryError.factoryNotSubclass pipe_code (t ++ "Factory")).desc
            = s1 ++ pipe_code ++ s2 ++ (t ++ "Factory") ++ s3) := by
  refine ⟨?_, ?_, ?_⟩
  · intro f hf hsub
    simp [make_pipe_from_blueprint, ht, hd, hf, hsub]
  · intro hnone
    refine ⟨by simp [make_pipe_from_blueprint, ht, hd, hnone], ?_⟩
    exact ⟨"Pipe '", "' couldn't be created: factory '", "' not found",
      by simp [PipeFactoryError.desc, String.append_assoc]⟩
  · intro f hf hsub
    refine ⟨by simp [make_pipe_from_blueprint, ht, hd, hf, hsub], ?_⟩
    exact ⟨"Pipe '", "' couldn't be created: factory '",
      "' is not a subclass of PipeSpecificFactoryProtocol",
      by simp [PipeFactoryError.desc, String.append_assoc]⟩

/-- A demo factory registry holding a protocol-compliant `PipeLLMFactory`. -/
def demoRegistry : List (String × FactoryEntry) :=
  [("PipeLLMFactory", ⟨true, fun dom code flds => ⟨dom, code, flds⟩⟩)]

/-- A demo pipe definition in the new `type`/`definition` format. -/
def demoDetails : List (String × String) :=
  [("type", "PipeLLM"), ("definition", "answers a question"), ("prompt_template", "Q: ...")]

/-- C7 witness: the resolution theorem at the demo registry — the
`PipeLLM` definition resolves `PipeLLMFactory` and the factory builds the
pipe from the normalized field map. -/
theorem make_pipe_factory_resolution_witness :
    make_pipe_from_blueprint demoRegistry "demo_domain" "answer_question" demoDetails =
      .ok ⟨"demo_domain", "answer_question",
        [("definition", "answers a question"), ("prompt_template", "Q: ..."),
         ("domain", "demo_domain")]⟩ :=
  (make_pipe_factory_resolution demoRegistry "demo_domain" "answer_question"
      demoDetails "PipeLLM" "answers a question" (by decide) (by decide)).1
    ⟨true, fun dom code flds => ⟨dom, code, flds⟩⟩ rfl rfl

end Pipelex.FactoryM

namespace Pipelex.LoaderM

/-- The three process-scoped registries the loader populates: domain codes,
concept keys (`domain.Code`) and pipe codes. -/
structure Libraries where
  domains : List String
  concepts : List String
  pipes : List String
deriving DecidableEq, Repr

/-- One observable registration action of `load_combo_libraries`. -/
inductive LoadEvent
  | registerDomain (code : String)
  | registerConcept (key : String)
  | instantiatePipe (code : String)
deriving DecidableEq, Repr

/-- The abort reasons of the concept and pipe passes. -/
inductive LoadError
  | conceptBlueprintError (domain concept_name : String)
  | duplicateConcept (key : String)
  | pipeBlueprintError (pipe_name : String)
  | duplicatePipe (code : String)
deriving DecidableEq, Repr

/-- `DomainLibrary.add_domain_details`: domains are merged by code, so a
repeated code is not an error. -/
def add_domain_details (st : Libraries) (code : String) : Libraries :=
  if st.domains.contains code then st else { st with domains := st.domains ++ [code] }

/-- First pass of `LibraryManager.load_combo_libraries`: register the domain
of every unit. -/
def load_domains_pass (st : Libraries) :
    List BlueprintM.PipelineLibraryBlueprint → Libraries × List LoadEvent
  | [] => (st, [])
  | u :: rest =>
    let r := load_domains_pass (add_domain_details st u.domain) rest
    (r.1, .registerDomain u.domain :: r.2)

/-- `LibraryManager._load_concepts_from_blueprint`: each concept of the unit
is built by the concept factory (an invalid concept name aborts with a
`ConceptBlueprintError`) and added as a new concept (a duplicate key
aborts). -/
def load_concepts_of_unit (domain : String) (st : Libraries) :
    List (String × BlueprintM.ConceptEntry) → Libraries × List LoadEvent × Option LoadError
  | [] => (st, [], none)
  | (concept_name, _entry) :: rest =>
    if ConceptValidation.isPascalCaseCode concept_name then
      let key := domain ++ "." ++ concept_name
      if st.concepts.contains key then (st, [], some (.duplicateConcept key))
      else
        let r := load_concepts_of_unit domain
          { st with concepts := st.concepts ++ [key] } rest
        (r.1, .registerConcept key :: r.2.1, r.2.2)
    else (st, [], some (.conceptBlueprintError domain concept_name))

/-- Second pass of `load_combo_libraries`: the concepts of every unit, in
unit order, aborting the whole load at the first failing unit. -/
def load_concepts_pass (st : Libraries) :
    List BlueprintM.PipelineLibraryBlueprint → Libraries × List LoadEvent × Option LoadError
  | [] => (st, [], none)
  | u :: rest =>
    let r1 := load_concepts_of_unit u.domain st u.concept
    match r1.2.2 with
    | some e => (r1.1, r1.2.1, some e)
    | none =>
      let r2 := load_concepts_pass r1.1 rest
      (r2.1, r1.2.1 ++ r2.2.1, r2.2.2)

/-- `LibraryManager._load_pipes_from_blueprint`: each pipe of the unit is
built through factory resolution (failure aborts with a pipe error) and
added as a new pipe (a duplicate code aborts). -/
def load_pipes_of_unit (registry : List (String × FactoryM.FactoryEntry)) (domain : String)
    (st : Libraries) :
    List (String × List (String × String)) → Libraries × List LoadEvent × Option LoadError
  | [] => (st, [], none)
  | (pipe_name, details) :: rest =>
    match FactoryM.make_pipe_from_blueprint registry domain pipe_name details with
    | .error _ => (st, [], some (.pipeBlueprintError pipe_name))
    | .ok _pipe =>
      if st.pipes.contains pipe_name then (st, [], some (.duplicatePipe pipe_name))
      else
        let r := load_pipes_of_unit registry domain
          { st with pipes := st.pipes ++ [pipe_name] } rest
        (r.1, .instantiatePipe pipe_name :: r.2.1, r.2.2)

/-- Third pass of `load_combo_libraries`: the pipes of every unit. -/
def load_pipes_pass (registry : List (String × FactoryM.FactoryEntry)) (st : Libraries) :
    List BlueprintM.PipelineLibraryBlueprint → Libraries × List LoadEvent × Option LoadError
  | [] => (st, [], none)
  | u :: rest =>
    let r1 := load_pipes_of_unit registry u.domain st u.pipe
    match r1.2.2 with
    | some e => (r1.1, r1.2.1, some e)
    | none =>
      let r2 := load_pipes_pass registry r1.1 rest
      (r2.1, r1.2.1 ++ r2.2.1, r2.2.2)

/-- `LibraryManager.load_combo_libraries`
(pipelex/libraries/library_manager.py, lines 173-213): three strictly
ordered passes over the whole unit set — all domains, then all concepts,
then all pipes — with the second pass's first error aborting before any pipe
is instantiated. The returned trace lists the registrations in order. -/
def load_combo_libraries (registry : List (String × FactoryM.FactoryEntry)) (st0 : Libraries)
    (units : List BlueprintM.PipelineLibraryBlueprint) :
    Libraries × List LoadEvent × Option LoadError :=
  let p1 := load_domains_pass st0 units
  let p2 := load_concepts_pass p1.1 units
  match p2.2.2 with
  | some e => (p2.1, p1.2 ++ p2.2.1, some e)
  | none =>
    let p3 := load_pipes_pass registry p2.1 units
    (p3.1, p1.2 ++ p2.2.1 ++ p3.2.1, p3.2.2)

theorem load_domains_pass_events (units : List BlueprintM.PipelineLibraryBlueprint) :
    ∀ st, (load_domains_pass st units).2
      = units.map (fun u => LoadEvent.registerDomain u.domain) := by
  induction units with
  | nil => intro st; rfl
  | cons u rest ih =>
    intro st
    simp [load_domains_pass, ih]

theorem load_concepts_pass_cons_some (st : Libraries)
    (v : BlueprintM.PipelineLibraryBlueprint) (rest : List BlueprintM.PipelineLibraryBlueprint)
    (err : LoadError) (h : (load_concepts_of_unit v.domain st v.concept).2.2 = some err) :
    load_concepts_pass st (v :: rest) =
      ((load_concepts_of_unit v.domain st v.concept).1,
       (load_concepts_of_unit v.domain st v.concept).2.1, some err) := by
  rw [load_concepts_pass, h]

theorem load_concepts_pass_cons_none (st : Libraries)
    (v : BlueprintM.PipelineLibraryBlueprint) (rest : List BlueprintM.PipelineLibraryBlueprint)
    (h : (load_concepts_of_unit v.domain st v.concept).2.2 = none) :
    load_concepts_pass st (v :: rest) =
      ((load_concepts_pass (load_concepts_of_unit v.domain st v.concept).1 rest).1,
       (load_concepts_of_unit v.domain st v.concept).2.1
         ++ (load_concepts_pass (load_concepts_of_unit v.domain st v.concept).1 rest).2.1,
       (load_concepts_pass (load_concepts_of_unit v.domain st v.concept).1 rest).2.2) := by
  rw [load_concepts_pass, h]

theorem load_pipes_pass_cons_some (registry : List (String × FactoryM.FactoryEntry))
    (st : Libraries) (v : BlueprintM.PipelineLibraryBlueprint)
    (rest : List BlueprintM.PipelineLibraryBlueprint) (err : LoadError)
    (h : (load_pipes_of_unit registry v.domain st v.pipe).2.2 = some err) :
    load_pipes_pass registry st (v :: rest) =
      ((load_pipes_of_unit registry v.domain st v.pipe).1,
       (load_pipes_of_unit registry v.domain st v.pipe).2.1, some err) := by
  rw [load_pipes_pass, h]

theorem load_pipes_pass_cons_none (registry : List (String × FactoryM.FactoryEntry))
    (st : Libraries) (v : BlueprintM.PipelineLibraryBlueprint)
    (rest : List BlueprintM.PipelineLibraryBlueprint)
    (h : (load_pipes_of_unit registry v.domain st v.pipe).2.2 = none) :
    load_pipes_pass registry st (v :: rest) =
      ((load_pipes_pass registry (load_pipes_of_unit registry v.domain st v.pipe).1 rest).1,
       (load_pipes_of_unit registry v.domain st v.pipe).2.1
         ++ (load_pipes_pass registry (load_pipes_of_unit registry v.domain st v.pipe).1
              rest).2.1,
       (load_pipes_pass registry (load_pipes_of_unit registry v.domain st v.pipe).1
         rest).2.2) := by
  rw [load_pipes_pass, h]

theorem load_concepts_of_unit_kinds (domain : String)
    (l : List (String × BlueprintM.ConceptEntry)) :
    ∀ st, ∀ e ∈ (load_concepts_of_unit domain st l).2.1,
      ∃ k, e = LoadEvent.registerConcept k := by
  induction l with
  | nil => intro st e he; simp [load_concepts_of_unit] at he
  | cons p rest ih =>
    intro st e he
    obtain ⟨nm, en⟩ := p
    by_cases hpc : ConceptValidation.isPascalCaseCode nm
    · by_cases hdup : (domain ++ "." ++ nm) ∈ st.concepts
      · simp [load_concepts_of_unit, hpc, hdup] at he
      · simp only [load_concepts_of_unit, hpc, if_true] at he
        rw [if_neg (by simpa using hdup)] at he
        rcases List.mem_cons.mp he with rfl | he'
        · exact ⟨domain ++ "." ++ nm, rfl⟩
        · exact ih _ e he'
    · simp [load_concepts_of_unit, hpc] at he

theorem load_concepts_pass_kinds (units : List BlueprintM.PipelineLibraryBlueprint) :
    ∀ st, ∀ e ∈ (load_concepts_pass st units).2.1,
      ∃ k, e = LoadEvent.registerConcept k := by
  induction units with
  | nil => intro st e he; simp [load_concepts_pass] at he
  | cons u rest ih =>
    intro st e he
    cases hr : (load_concepts_of_unit u.domain st u.concept).2.2 with
    | some err =>
      rw [load_concepts_pass_cons_some st u rest err hr] at he
      exact load_concepts_of_unit_kinds u.domain u.concept st e he
    | none =>
      rw [load_concepts_pass_cons_none st u rest hr] at he
      rcases List.mem_append.mp he with he' | he'
      · exact load_concepts_of_unit_kinds u.domain u.concept st e he'
      · exact ih _ e he'

theorem load_concepts_of_unit_complete (domain : String)
    (l : List (String × BlueprintM.ConceptEntry)) :
    ∀ st, (load_concepts_of_unit domain st l).2.2 = none →
      ∀ p ∈ l, LoadEvent.registerConcept (domain ++ "." ++ p.1)
        ∈ (load_concepts_of_unit domain st l).2.1 := by
  induction l with
  | nil => intro st _ p hp; simp at hp
  | cons q rest ih =>
    intro st hok p hp
    obtain ⟨nm, en⟩ := q
    by_cases hpc : ConceptValidation.isPascalCaseCode nm
    · by_cases hdup : (domain ++ "." ++ nm) ∈ st.concepts
      · simp [load_concepts_of_unit, hpc, hdup] at hok
      · simp only [load_concepts_of_unit, hpc, if_true] at hok ⊢
        rw [if_neg (by simpa using hdup)] at hok ⊢
        rcases List.mem_cons.mp hp with rfl | hp'
        · exact List.mem_cons_self _ _
        · exact List.mem_cons_of_mem _ (ih _ hok p hp')
    · simp [load_concepts_of_unit, hpc] at hok

theorem load_concepts_pass_complete (units : List BlueprintM.PipelineLibraryBlueprint) :
    ∀ st, (load_concepts_pass st units).2.2 = none →
      ∀ u ∈ units, ∀ p ∈ u.concept,
        LoadEvent.registerConcept (u.domain ++ "." ++ p.1)
          ∈ (load_concepts_pass st units).2.1 := by
  induction units with
  | nil => intro st _ u hu; simp at hu
  | cons v rest ih =>
    intro st hok u hu p hp
    cases hr : (load_concepts_of_unit v.domain st v.concept).2.2 with
    | some err =>
      rw [load_concepts_pass_cons_some st v rest err hr] at hok
      exact Option.noConfusion hok
    | none =>
      rw [load_concepts_pass_cons_none st v rest hr] at hok ⊢
      rcases List.mem_cons.mp hu with rfl | hu'
      · exact List.mem_append.mpr
          (Or.inl (load_concepts_of_unit_complete u.domain u.concept st hr p hp))
      · exact List.mem_append.mpr (Or.inr (ih _ hok u hu' p hp))

theorem load_pipes_of_unit_kinds (registry : List (String × FactoryM.FactoryEntry))
    (domain : String) (l : List (String × List (String × String))) :
    ∀ st, ∀ e ∈ (load_pipes_of_unit registry domain st l).2.1,
      ∃ p, e = LoadEvent.instantiatePipe p := by
  induction l with
  | nil => intro st e he; simp [load_pipes_of_unit] at he
  | cons q rest ih =>
    intro st e he
    obtain ⟨nm, details⟩ := q
    rw [load_pipes_of_unit] at he
    cases hmk : FactoryM.make_pipe_from_blueprint registry domain nm details with
    | error err => rw [hmk] at he; simp at he
    | ok pobj =>
      rw [hmk] at he
      by_cases hdup : nm ∈ st.pipes
      · simp [hdup] at he
      · simp only [] at he
        rw [if_neg (by simpa using hdup)] at he
        rcases List.mem_cons.mp he with rfl | he'
        · exact ⟨nm, rfl⟩
        · exact ih _ e he'

theorem load_pipes_pass_kinds (registry : List (String × FactoryM.FactoryEntry))
    (units : List BlueprintM.PipelineLibraryBlueprint) :
    ∀ st, ∀ e ∈ (load_pipes_pass registry st units).2.1,
      ∃ p, e = LoadEvent.instantiatePipe p := by
  induction units with
  | nil => intro st e he; simp [load_pipes_pass] at he
  | cons u rest ih =>
    intro st e he
    cases hr : (load_pipes_of_unit registry u.domain st u.pipe).2.2 with
    | some err =>
      rw [load_pipes_pass_cons_some registry st u rest err hr] at he
      exact load_pipes_of_unit_kinds registry u.domain u.pipe st e he
    | none =>
      rw [load_pipes_pass_cons_none registry st u rest hr] at he
      rcases List.mem_append.mp he with he' | he'
      · exact load_pipes_of_unit_kinds registry u.domain u.pipe st e he'
      · exact ih _ e he'

/-- C6: `load_combo_libraries` performs three strictly ordered passes over
the whole unit set: the trace decomposes as domain registrations (one per
unit, in order), then concept registrations, then pipe instantiations; and
if any pipe is instantiated at all, then every concept of every unit was
registered in the (earlier) concept segment. -/
theorem load_combo_libraries_three_passes (registry : List (String × FactoryM.FactoryEntry))
    (st0 : Libraries) (units : List BlueprintM.PipelineLibraryBlueprint) :
    ∃ A B C,
      (load_combo_libraries registry st0 units).2.1 = A ++ B ++ C
      ∧ A = units.map (fun u => LoadEvent.registerDomain u.domain)
      ∧ (∀ e ∈ B, ∃ k, e = LoadEvent.registerConcept k)
      ∧ (∀ e ∈ C, ∃ p, e = LoadEvent.instantiatePipe p)
      ∧ (C ≠ [] → ∀ u ∈ units, ∀ p ∈ u.concept,
          LoadEvent.registerConcept (u.domain ++ "." ++ p.1) ∈ B) := by
  rw [load_combo_libraries]
  rcases hp2 : (load_concepts_pass (load_domains_pass st0 units).1 units).2.2 with _ | err
  · refine ⟨(load_domains_pass st0 units).2,
      (load_concepts_pass (load_domains_pass st0 units).1 units).2.1,
      (load_pipes_pass registry (load_concepts_pass (load_domains_pass st0 units).1 units).1
        units).2.1, ?_, load_domains_pass_events units st0, ?_, ?_, ?_⟩
    · simp [hp2]
    · exact load_concepts_pass_kinds units _
    · exact load_pipes_pass_kinds registry units _
    · intro _ u hu p hp
      exact load_concepts_pass_complete units _ hp2 u hu p hp
  · refine ⟨(load_domains_pass st0 units).2,
      (load_concepts_pass (load_domains_pass st0 units).1 units).2.1, [], ?_,
      load_domains_pass_events units st0, ?_, ?_, ?_⟩
    · simp [hp2]
    · exact load_concepts_pass_kinds units _
    · intro e he; simp at he
    · intro hne; exact absurd rfl hne

/-- A first demo unit with one concept and one pipe. -/
def unitCars : BlueprintM.PipelineLibraryBlueprint :=
  { domain := "cars"
    concept := [("CarDescription", .str "a description of a car")]
    pipe := [("generate_car_description", [("type", "PipeLLM"), ("definition", "generates")])] }

/-- A second demo unit with one concept and no pipe. -/
def unitAnimals : BlueprintM.PipelineLibraryBlueprint :=
  { domain := "animals"
    concept := [("AnimalDescription", .str "a description of an animal")] }

/-- C6 witness: the three-pass theorem at a concrete two-unit load through
the demo factory registry. -/
theorem load_combo_libraries_three_passes_witness :
    ∃ A B C,
      (load_combo_libraries FactoryM.demoRegistry ⟨[], [], []⟩ [unitCars, unitAnimals]).2.1
          = A ++ B ++ C
      ∧ A = [unitCars, unitAnimals].map (fun u => LoadEvent.registerDomain u.domain)
      ∧ (∀ e ∈ B, ∃ k, e = LoadEvent.registerConcept k)
      ∧ (∀ e ∈ C, ∃ p, e = LoadEvent.instantiatePipe p)
      ∧ (C ≠ [] → ∀ u ∈ [unitCars, unitAnimals], ∀ p ∈ u.concept,
          LoadEvent.registerConcept (u.domain ++ "." ++ p.1) ∈ B) :=
  load_combo_libraries_three_passes FactoryM.demoRegistry ⟨[], [], []⟩ [unitCars, unitAnimals]

end Pipelex.LoaderM

namespace Pipelex.HealM

/-- `StaticValidationErrorType`: the dry-run validator's error taxonomy. -/
inductive SVEType
  | missingInputVariable
  | extraneousInputVariable
  | inadequateInputConcept
  | tooManyCandidateInputs
deriving DecidableEq, Repr

/-- A `StaticValidationError` as `validate_blueprint` inspects it: its type,
the offending pipe code and the reported variable/concept pairs. -/
structure StaticValidationErrorM where
  error_type : SVEType
  pipe_code : Option String
  variable_names : List String
  required_concept_codes : List String
deriving DecidableEq, Repr

/-- A loaded pipe as `validate_blueprint` sees it: whether it is a
`PipeController`, and its declared inputs field map. -/
structure PipeEntry where
  is_controller : Bool
  inputs : List (String × String)
deriving DecidableEq, Repr

/-- The generated `PipelineBlueprint` being validated: a domain and the
`pipe` table (pipe code to its field map, of which only the inputs and
controller-ness matter here). -/
structure PipelineBlueprint where
  domain : String
  pipes : List (String × PipeEntry)
deriving DecidableEq, Repr

/-- The observable outcome of `validate_blueprint`: normal return,
a `PipelexCLIError`, a re-raised `StaticValidationError`, or running out of
recursion fuel (the Python recursion has no explicit bound of its own). -/
inductive VResult
  | ok
  | cliError
  | staticError (e : StaticValidationErrorM)
  | fuelExhausted
deriving DecidableEq, Repr

/-- The self-healing patch: `blueprint.pipe[pipe_code]["inputs"][var] = code`
for each reported variable/concept pair. -/
def patch_inputs (b : PipelineBlueprint) (pc : String)
    (pairs : List (String × String)) : PipelineBlueprint :=
  match Pipelex.getKey b.pipes pc with
  | none => b
  | some pe =>
    let patched : PipeEntry :=
      { pe with inputs := pairs.foldl (fun acc p => Pipelex.setKey acc p.1 p.2) pe.inputs }
    { b with pipes := Pipelex.setKey b.pipes pc patched }

/-- `validate_blueprint` (pipelex/create/validate_blueprint.py, lines
14-55). The dry run of `validate_loaded_blueprint` is abstracted as
`oracle` (the `StaticValidationError` it raises on the current blueprint, if
any; a blueprint with no pipes raises `PipelexCLIError` before the dry run).
On a missing-input-variable error: a falsy pipe code, an unknown pipe, or
empty reported variable/concept lists raise `PipelexCLIError`; a controller
pipe's declared inputs are patched with the reported pairs and validation
recurses; on a NON-controller pipe the `match` case body ends without
raising, so the function falls through to the success path. Every other
static validation error is re-raised. -/
def validate_blueprint (oracle : PipelineBlueprint → Option StaticValidationErrorM) :
    Nat → PipelineBlueprint → VResult
  | 0, _ => .fuelExhausted
  | fuel + 1, b =>
    if b.pipes.isEmpty then .cliError
    else
      match oracle b with
      | none => .ok
      | some e =>
        if e.error_type = .missingInputVariable then
          match e.pipe_code with
          | none => .cliError
          | some pc =>
            if pc = "" then .cliError
            else
              match Pipelex.getKey b.pipes pc with
              | none => .cliError
              | some pe =>
                if pe.is_controller then
                  if e.variable_names.isEmpty then .cliError
                  else if e.required_concept_codes.isEmpty then .cliError
                  else validate_blueprint oracle fuel
                    (patch_inputs b pc (e.variable_names.zip e.required_concept_codes))
                else .ok
        else .staticError e

theorem validate_blueprint_propagates_non_missing
    (oracle : PipelineBlueprint → Option StaticValidationErrorM) :
    ∀ (m : Nat) (b : PipelineBlueprint) (e' : StaticValidationErrorM),
      validate_blueprint oracle m b = .staticError e' →
      e'.error_type ≠ .missingInputVariable := by
  intro m
  induction m with
  | zero =>
    intro b e' h
    exact VResult.noConfusion h
  | succ n ih =>
    intro b e' h
    rw [validate_blueprint] at h
    by_cases hemp : b.pipes.isEmpty = true
    · rw [if_pos hemp] at h
      exact VResult.noConfusion h
    · rw [if_neg hemp] at h
      cases horc : oracle b with
      | none =>
        simp only [horc] at h
        exact VResult.noConfusion h
      | some e =>
        simp only [horc] at h
        by_cases htype : e.error_type = SVEType.missingInputVariable
        · rw [if_pos htype] at h
          cases hpc : e.pipe_code with
          | none => simp only [hpc] at h; exact VResult.noConfusion h
          | some pc =>
            simp only [hpc] at h
            by_cases hpe : pc = ""
            · rw [if_pos hpe] at h; exact VResult.noConfusion h
            · rw [if_neg hpe] at h
              cases hlk : Pipelex.getKey b.pipes pc with
              | none => simp only [hlk] at h; exact VResult.noConfusion h
              | some pe =>
                simp only [hlk] at h
                by_cases hctl : pe.is_controller = true
                · rw [if_pos hctl] at h
                  by_cases hv : e.variable_names.isEmpty = true
                  · rw [if_pos hv] at h; exact VResult.noConfusion h
                  · rw [if_neg hv] at h
                    by_cases hc : e.required_concept_codes.isEmpty = true
                    · rw [if_pos hc] at h; exact VResult.noConfusion h
                    · rw [if_neg hc] at h
                      exact ih _ _ h
                · rw [if_neg hctl] at h; exact VResult.noConfusion h
        · rw [if_neg htype] at h
          injection h with h2
          subst h2
          exact htype

/-- C8 (amended): during blueprint validation with self-healing, a
missing-input-variable error on a controller pipe is repaired — the pipe's
declared inputs are patched with the reported variable/concept pairs and
validation recurses — and every static validation error of any other type is
re-raised (whatever is propagated as a static error is never a
missing-input-variable error); but a missing-input-variable error on a
NON-controller pipe is silently swallowed: validation returns success. -/
theorem validate_blueprint_healing
    (oracle : PipelineBlueprint → Option StaticValidationErrorM)
    (n : Nat) (b : PipelineBlueprint) (e : StaticValidationErrorM)
    (hne : b.pipes.isEmpty = false)
    (ho : oracle b = some e) :
    (e.error_type ≠ .missingInputVariable →
        validate_blueprint oracle (n + 1) b = .staticError e)
    ∧ (∀ pc pe, e.error_type = .missingInputVariable → e.pipe_code = some pc →
        pc ≠ "" → Pipelex.getKey b.pipes pc = some pe → pe.is_controller = true →
        e.variable_names.isEmpty = false → e.required_concept_codes.isEmpty = false →
        validate_blueprint oracle (n + 1) b =
          validate_blueprint oracle n
            (patch_inputs b pc (e.variable_names.zip e.required_concept_codes)))
    ∧ (∀ pc pe, e.error_type = .missingInputVariable → e.pipe_code = some pc →
        pc ≠ "" → Pipelex.getKey b.pipes pc = some pe → pe.is_controller = false →
        validate_blueprint oracle (n + 1) b = .ok)
    ∧ (∀ (m : Nat) (b' : PipelineBlueprint) (e' : StaticValidationErrorM),
        validate_blueprint oracle m b' = .staticError e' →
        e'.error_type ≠ .missingInputVariable) := by
  refine ⟨?_, ?_, ?_, validate_blueprint_propagates_non_missing oracle⟩
  · intro htype
    rw [validate_blueprint]
    simp [hne, ho, htype]
  · intro pc pe htype hpc hpcne hlk hctl hv hc
    rw [validate_blueprint]
    simp [hne, ho, htype, hpc, hpcne, hlk, hctl, hv, hc]
  · intro pc pe htype hpc hpcne hlk hctl
    rw [validate_blueprint]
    simp [hne, ho, htype, hpc, hpcne, hlk, hctl]

/-- The static validation error the counterexample oracle reports: a missing
input variable on the non-controller pipe `op_pipe`. -/
def swallowError : StaticValidationErrorM :=
  ⟨.missingInputVariable, some "op_pipe", ["x"], ["Text"]⟩

/-- An oracle whose dry run always reports `swallowError`. -/
def swallowOracle : PipelineBlueprint → Option StaticValidationErrorM :=
  fun _ => some swallowError

/-- A blueprint whose only pipe is a non-controller (operator) pipe. -/
def swallowBlueprint : PipelineBlueprint := ⟨"demo_domain", [("op_pipe", ⟨false, []⟩)]⟩

/-- C8 counterexample: the dry run reports a missing-input-variable error on
a non-controller pipe, yet validation returns success — the error is neither
repaired (with fuel 1 a recursion would return `fuelExhausted`, not `ok`)
nor propagated. -/
theorem validate_blueprint_swallow_cex :
    swallowOracle swallowBlueprint = some swallowError
    ∧ swallowError.error_type = .missingInputVariable
    ∧ validate_blueprint swallowOracle 1 swallowBlueprint = .ok
    ∧ validate_blueprint swallowOracle 1 swallowBlueprint ≠ .staticError swallowError := by
  refine ⟨rfl, rfl, by decide, by decide⟩

/-- The controller-pipe error of the witness scenario. -/
def ctrlError : StaticValidationErrorM :=
  ⟨.missingInputVariable, some "seq_pipe", ["input_text"], ["Text"]⟩

/-- An oracle that always reports `ctrlError`. -/
def ctrlOracle : PipelineBlueprint → Option StaticValidationErrorM :=
  fun _ => some ctrlError

/-- A blueprint whose only pipe is a controller with no declared inputs. -/
def ctrlBlueprint : PipelineBlueprint := ⟨"demo_domain", [("seq_pipe", ⟨true, []⟩)]⟩

/-- C8 witness: the healing theorem at the concrete controller scenario —
the missing-input error is repaired by patching the controller's inputs and
re-validating. -/
theorem validate_blueprint_healing_witness :
    validate_blueprint ctrlOracle 4 ctrlBlueprint =
      validate_blueprint ctrlOracle 3
        (patch_inputs ctrlBlueprint "seq_pipe"
          (ctrlError.variable_names.zip ctrlError.required_concept_codes)) :=
  (validate_blueprint_healing ctrlOracle 3 ctrlBlueprint ctrlError (by decide) (by decide)).2.1
    "seq_pipe" ⟨true, []⟩ (by decide) (by decide) (by decide) (by decide) (by decide)
    (by decide) (by decide)

end Pipelex.HealM
